import Mathlib

/-
  Verification of the Slack channel analyzer pipeline (slack-analyzer.js).

  The file shallowly embeds the pure core of the program.  The two remote
  collaborators (the chat backend and the completion backend) are passed in
  explicitly as the sequences of responses they return to the successive
  requests the code issues; a response is an Except value whose error case
  models a rejected (thrown) request.  Machine time is modelled as unix
  seconds on a DST-free (UTC) clock, matching the second granularity of the
  second-granular YYYY-MM-DD HH:mm:ss rendering in the program.
-/

namespace SlackAnalyzer

/-! JavaScript truthiness helpers: the empty string, null and undefined are
falsy; an absent optional models null/undefined. -/

/-- Truthiness of a JavaScript string: the empty string is falsy. -/
def strTruthy (s : String) : Bool := !s.isEmpty

/-- Truthiness of a possibly-absent string. -/
def optTruthy : Option String → Bool
  | none => false
  | some s => strTruthy s

/-- The JavaScript expression a || b for a possibly-absent string a and a
string default b. -/
def orFalsy (a : Option String) (b : String) : String :=
  match a with
  | some s => if strTruthy s then s else b
  | none => b

/-! Timestamp rendering.  The code renders the unix time of a message with
moment.unix(ts).format("YYYY-MM-DD HH:mm:ss") and later re-parses that very
string with new Date(...) inside the sort comparator.  Both are modelled on
a UTC clock via the standard civil-calendar conversion. -/

/-- Civil date (year, month, day) from a count of days since 1970-01-01 in
the proleptic Gregorian calendar (the standard days-to-civil algorithm). -/
def civilFromDays (days : Nat) : Nat × Nat × Nat :=
  let z := days + 719468
  let era := z / 146097
  let doe := z % 146097
  let yoe := (doe - doe / 1460 + doe / 36524 - doe / 146096) / 365
  let y := yoe + era * 400
  let doy := doe - (365 * yoe + yoe / 4 - yoe / 100)
  let mp := (5 * doy + 2) / 153
  let d := doy - (153 * mp + 2) / 5 + 1
  let m := if mp < 10 then mp + 3 else mp - 9
  (if m ≤ 2 then y + 1 else y, m, d)

/-- Days since 1970-01-01 from a civil date (valid for dates from 1970 on;
the inverse of civilFromDays on that range). -/
def daysFromCivil (y m d : Nat) : Nat :=
  let yAdj := if m ≤ 2 then y - 1 else y
  let era := yAdj / 400
  let yoe := yAdj % 400
  let mp := if m > 2 then m - 3 else m + 9
  let doy := (153 * mp + 2) / 5 + d - 1
  let doe := yoe * 365 + yoe / 4 - yoe / 100 + doy
  era * 146097 + doe - 719468

/-- Two-digit zero padding, as the format tokens MM DD HH mm ss produce. -/
def pad2 (n : Nat) : String :=
  if n < 10 then "0" ++ toString n else toString n

/-- Models moment.unix(t).format("YYYY-MM-DD HH:mm:ss") on a UTC clock for a
unix time t in seconds. -/
def formatTimestamp (t : Nat) : String :=
  let secs := t % 86400
  match civilFromDays (t / 86400) with
  | (y, m, d) =>
    toString y ++ "-" ++ pad2 m ++ "-" ++ pad2 d ++ " " ++
      pad2 (secs / 3600) ++ ":" ++ pad2 (secs % 3600 / 60) ++ ":" ++ pad2 (secs % 60)

/-- Models the value new Date(s) yields (in unix seconds, UTC clock) for a
string in the YYYY-MM-DD HH:mm:ss shape produced by formatTimestamp; other
strings map to 0 (the comparator never receives them). -/
def parseFormatted (s : String) : Nat :=
  match s.splitOn " " with
  | [date, time] =>
    (match date.splitOn "-", time.splitOn ":" with
     | [y, mo, d], [h, mi, se] =>
       daysFromCivil (y.toNat?.getD 0) (mo.toNat?.getD 0) (d.toNat?.getD 0) * 86400
         + (h.toNat?.getD 0) * 3600 + (mi.toNat?.getD 0) * 60 + se.toNat?.getD 0
     | _, _ => 0)
  | _ => 0

/-- The numeric coercion moment.unix applies to a Slack ts string, truncated
to whole seconds by the format: the integer part of the decimal string.
Non-numeric input maps to 0 (only numeric ts strings occur in practice). -/
def tsToSeconds (s : String) : Nat :=
  ((s.takeWhile (· != '.')).toNat?).getD 0

/-! The Time Resolver (parseDateTime).  The code runs the JavaScript regex
  (\d+)\s+(day|days|week|weeks|hour|hours|minute|minutes)\s+ago
with flag i against the input — an unanchored, case-insensitive search —
and on a match subtracts amount·unit from the current time; otherwise it
hands the string to the absolute parser of moment and fails if that parse is
invalid.  The regex engine is modelled below: leftmost starting position,
greedy repetition (provably equivalent to backtracking here, since a digit
never satisfies \s and a space never starts a unit word), and left-to-right
alternation with backtracking into the next alternative. -/

/-- The character class \d. -/
def isDigitCh (c : Char) : Bool := '0' ≤ c && c ≤ '9'

/-- The character class \s (the ASCII whitespace it matches). -/
def isSpaceCh (c : Char) : Bool :=
  c == ' ' || c == '\t' || c == '\n' || c == '\r' ||
    c == Char.ofNat 11 || c == Char.ofNat 12

/-- Case-insensitive literal match: strips pattern p (given lowercase) from
the head of the input, returning the rest. -/
def stripCI : List Char → List Char → Option (List Char)
  | [], cs => some cs
  | _ :: _, [] => none
  | p :: ps, c :: cs => if c.toLower == p then stripCI ps cs else none

/-- The unit alternatives, in the left-to-right order of the regex. -/
def relativeUnits : List String :=
  ["day", "days", "week", "weeks", "hour", "hours", "minute", "minutes"]

/-- Numeric value of a captured digit run (parseInt on an all-digit string). -/
def digitsToNat (ds : List Char) : Nat :=
  ds.foldl (fun a c => a * 10 + (c.toNat - '0'.toNat)) 0

/-- One alternative of the unit alternation: matches the unit word u, then
\s+, then ago, continuing from rest2; on success yields the captured amount
and unit together with the characters left after the match. -/
def tryUnit (amount : Nat) (rest2 : List Char) (u : String) :
    Option (Nat × String × List Char) :=
  match stripCI u.toList rest2 with
  | none => none
  | some rest3 =>
    if (rest3.span isSpaceCh).1.isEmpty then none
    else
      match stripCI ['a', 'g', 'o'] (rest3.span isSpaceCh).2 with
      | none => none
      | some rest5 => some (amount, u, rest5)

/-- Attempts to match (\d+)\s+(unit)\s+ago at the head of the input.
Returns the captured amount, the captured unit and the characters left after
the match. -/
def matchRelAt (cs : List Char) : Option (Nat × String × List Char) :=
  if (cs.span isDigitCh).1.isEmpty then none
  else
    if ((cs.span isDigitCh).2.span isSpaceCh).1.isEmpty then none
    else
      relativeUnits.findSome?
        (tryUnit (digitsToNat (cs.span isDigitCh).1)
          ((cs.span isDigitCh).2.span isSpaceCh).2)

/-- The unanchored search: the leftmost position at which matchRelAt
succeeds, as the regex engine finds it. -/
def relSearch : List Char → Option (Nat × String × List Char)
  | [] => none
  | c :: cs =>
    match matchRelAt (c :: cs) with
    | some r => some r
    | none => relSearch cs

/-- Models datetimeInput.match(relativeRegex): the captures of the leftmost
match, if any. -/
def relativeMatch (s : String) : Option (Nat × String) :=
  match relSearch s.toList with
  | some (n, u, _) => some (n, u)
  | none => none

/-- Seconds in one of the recognized units, as the subtract operation of moment applies to
them on a DST-free clock. -/
def unitSeconds (u : String) : Int :=
  if u == "minute" || u == "minutes" then 60
  else if u == "hour" || u == "hours" then 3600
  else if u == "day" || u == "days" then 86400
  else 604800

/-- Shallow embedding of parseDateTime.  now is the current clock reading in
unix seconds; absParse models the absolute-format
parser of the collaborating library (moment(input)), returning the parsed unix time or none when the
string is not a valid calendar timestamp.  The error case carries the thrown
message. -/
def parseDateTime (now : Int) (absParse : String → Option Int)
    (datetimeInput : String) : Except String Int :=
  match relativeMatch datetimeInput with
  | some (amount, unit) => .ok (now - (amount : Int) * unitSeconds unit)
  | none =>
    match absParse datetimeInput with
    | some t => .ok t
    | none =>
      .error ("Invalid datetime format: " ++ datetimeInput ++
        ". Use ISO format (2024-01-01T10:00:00Z) or relative format (2 days ago)")

/-! Channel resolution (resolveChannelId). -/

/-- A channel record as returned by conversations.list. -/
structure ChannelRec where
  id : String
  name : String
deriving DecidableEq, Repr

/-- The canonical channel-identifier shape, regex ^C[A-Z0-9]+$. -/
def isChannelIdShape (s : String) : Bool :=
  match s.toList with
  | [] => false
  | c :: rest =>
    c == 'C' && !rest.isEmpty &&
      rest.all (fun ch => ('A' ≤ ch && ch ≤ 'Z') || ('0' ≤ ch && ch ≤ '9'))

/-- channelInput.replace with the anchored hash regex: strips one leading # if present. -/
def stripHash (s : String) : String :=
  match s.toList with
  | '#' :: rest => String.mk rest
  | _ => s

/-- Shallow embedding of resolveChannelId.  listChannels models the single
conversations.list call: the returned channel array, or a transport error.
The not-found throw sits inside the try block, so the catch wraps it in the
same "Failed to resolve channel" prefix it puts on transport errors. -/
def resolveChannelId (listChannels : Except String (List ChannelRec))
    (channelInput : String) : Except String String :=
  if isChannelIdShape channelInput then .ok channelInput
  else
    let channelName := stripHash channelInput
    match listChannels with
    | .error msg => .error ("Failed to resolve channel: " ++ msg)
    | .ok channels =>
      match channels.find? (fun ch => ch.name == channelName) with
      | some channel => .ok channel.id
      | none =>
        .error ("Failed to resolve channel: " ++
          ("Channel not found: " ++ channelInput))

/-! The member directory (getUserMap). -/

/-- A member record as returned by users.list. -/
structure SlackUser where
  id : String
  real_name : Option String
  name : Option String
  profile_display_name : Option String
deriving DecidableEq, Repr

/-- One users.list response page. -/
structure UsersPage where
  members : List SlackUser
  next_cursor : Option String
deriving DecidableEq, Repr

/-- JavaScript Map.set: overwrite an existing key in place, else append. -/
def mapSet (m : List (String × String)) (k v : String) : List (String × String) :=
  if m.any (fun p => p.1 == k) then
    m.map (fun p => if p.1 == k then (k, v) else p)
  else m ++ [(k, v)]

/-- JavaScript Map.get: the stored value, if the key is present. -/
def mapGet (m : List (String × String)) (k : String) : Option String :=
  (m.find? (fun p => p.1 == k)).map (·.2)

/-- user.real_name || user.name || user.profile?.display_name ||
"Unknown User". -/
def displayName (u : SlackUser) : String :=
  orFalsy u.real_name (orFalsy u.name (orFalsy u.profile_display_name "Unknown User"))

/-- The do-while body of getUserMap over the successive users.list
responses; a transport error makes the catch clause return the map built so
far.  The loop continues only while the returned cursor is truthy. -/
def getUserMapLoop (userMap : List (String × String)) :
    List (Except String UsersPage) → List (String × String)
  | [] => userMap
  | .error _ :: _ => userMap
  | .ok page :: rest =>
    let m := page.members.foldl (fun acc u => mapSet acc u.id (displayName u)) userMap
    if optTruthy page.next_cursor then getUserMapLoop m rest else m

/-- Shallow embedding of getUserMap.  pages is the sequence of users.list
responses the backend returns to the cursor-following requests. -/
def getUserMap (pages : List (Except String UsersPage)) : List (String × String) :=
  getUserMapLoop [] pages

/-! Message fetching (getThreadReplies and fetchChannelMessages). -/

/-- A raw message record as returned by conversations.history or
conversations.replies.  Optional fields model absent JSON properties. -/
structure RawMessage where
  user : Option String
  ts : String
  text : Option String
  type : Option String
  thread_ts : Option String
  reply_count : Option Nat
deriving DecidableEq, Repr

/-- Shallow embedding of getThreadReplies: repliesResponse models the single
conversations.replies call for the thread.  The echoed parent is dropped
with slice(1); any error is caught, logged and turned into []. -/
def getThreadReplies (repliesResponse : Except String (List RawMessage)) :
    List RawMessage :=
  match repliesResponse with
  | .ok msgs => msgs.drop 1
  | .error _ => []

/-- A reply as the fetcher assembles it. -/
structure Reply where
  timestamp : String
  username : String
  text : String
  type : String
deriving DecidableEq, Repr

/-- A formatted message as the fetcher assembles it. -/
structure Message where
  timestamp : String
  username : String
  text : String
  type : String
  replies : List Reply
deriving DecidableEq, Repr

/-- userMap.get(message.user) || message.user || "Unknown User".  A missing
user field makes Map.get return undefined, so both fallbacks fire. -/
def resolveName (userMap : List (String × String)) (user : Option String) : String :=
  orFalsy (user.bind (mapGet userMap)) (orFalsy user "Unknown User")

/-- The guard on the reply fetch:
message.thread_ts && message.thread_ts === message.ts. -/
def triggersReplyFetch (m : RawMessage) : Bool :=
  match m.thread_ts with
  | some t => strTruthy t && t == m.ts
  | none => false

/-- Builds one Reply record from a raw reply. -/
def mkReply (userMap : List (String × String)) (reply : RawMessage) : Reply :=
  { timestamp := formatTimestamp (tsToSeconds reply.ts)
    username := resolveName userMap reply.user
    text := orFalsy reply.text ""
    type := orFalsy reply.type "message" }

/-- Processes one history message: builds the formatted record and, when the
reply-fetch guard holds, attaches the mapped replies of the single
conversations.replies call (oracle gives the response to that call, keyed by the
thread timestamp; the channel argument is fixed for the whole run). -/
def processMessage (userMap : List (String × String))
    (oracle : String → Except String (List RawMessage)) (message : RawMessage) :
    Message :=
  { timestamp := formatTimestamp (tsToSeconds message.ts)
    username := resolveName userMap message.user
    text := orFalsy message.text ""
    type := orFalsy message.type "message"
    replies :=
      if triggersReplyFetch message then
        (getThreadReplies (oracle message.ts)).map (mkReply userMap)
      else [] }

/-- One conversations.history response page. -/
structure HistoryPage where
  messages : List RawMessage
  next_cursor : Option String
deriving DecidableEq, Repr

/-- The while loop of fetchChannelMessages over the successive
conversations.history responses: stop on an empty page or an untruthy
cursor; a rejected request escapes to the catch clause, which rethrows with
the "Failed to fetch messages" prefix (fatal). -/
def fetchLoop (userMap : List (String × String))
    (oracle : String → Except String (List RawMessage)) :
    List (Except String HistoryPage) → Except String (List Message)
  | [] => .ok []
  | .error msg :: _ => .error ("Failed to fetch messages: " ++ msg)
  | .ok page :: rest =>
    if page.messages.isEmpty then .ok []
    else
      let processed := page.messages.map (processMessage userMap oracle)
      if optTruthy page.next_cursor then
        match fetchLoop userMap oracle rest with
        | .ok more => .ok (processed ++ more)
        | .error e => .error e
      else .ok processed

/-- The sort comparator (a, b) => new Date(a.timestamp) - new Date(b.timestamp)
as the ascending-order relation it induces. -/
def msgLE (a b : Message) : Bool :=
  decide (parseFormatted a.timestamp ≤ parseFormatted b.timestamp)

/-- Shallow embedding of fetchChannelMessages: consume the history pages,
then sort the accumulated list ascending by timestamp (a stable sort, as
Array.prototype.sort of JavaScript is). -/
def fetchChannelMessages (userMap : List (String × String))
    (oracle : String → Except String (List RawMessage))
    (pages : List (Except String HistoryPage)) : Except String (List Message) :=
  match fetchLoop userMap oracle pages with
  | .ok allMessages => .ok (allMessages.mergeSort msgLE)
  | .error e => .error e

/-- The raw messages the while loop actually iterates over (it stops at an
empty page, an untruthy cursor or an error).  Each of these is inspected by
the reply-fetch guard exactly once, so the number of reply-fetch calls in a
run is the count of guard-true messages in this list. -/
def consumedRaw : List (Except String HistoryPage) → List RawMessage
  | [] => []
  | .error _ :: _ => []
  | .ok page :: rest =>
    if page.messages.isEmpty then []
    else
      page.messages ++ (if optTruthy page.next_cursor then consumedRaw rest else [])

/-- The number of conversations.replies calls a run issues. -/
def replyFetchCount (pages : List (Except String HistoryPage)) : Nat :=
  (consumedRaw pages).countP triggersReplyFetch

/-! The Transcript Formatter (formatConversationForAI). -/

/-- Shallow embedding of formatConversationForAI: the header, then the
forEach accumulation of a message line, its indented reply lines, and a
blank separator line.  A pure function of its two arguments. -/
def formatConversationForAI (messages : List Message) (channelId : String) : String :=
  messages.foldl
    (fun conversationText message =>
      let withLine := conversationText ++
        ("[" ++ message.timestamp ++ "] " ++ message.username ++ ": " ++
          message.text ++ "\n")
      let withReplies := message.replies.foldl
        (fun acc reply => acc ++
          ("    └─ [" ++ reply.timestamp ++ "] " ++ reply.username ++ ": " ++
            reply.text ++ "\n"))
        withLine
      withReplies ++ "\n")
    ("=== SLACK CHANNEL CONVERSATION (" ++ channelId ++ ") ===\n\n")

/-! The Analysis Client (analyzeWithAI) and the Orchestrator (main). -/

/-- Shallow embedding of analyzeWithAI.  svc models the completion endpoint
applied to the constructed user-role message (the fixed system prompt and
sampling constants are configuration the claims do not inspect); a rejected
call is wrapped as an AI analysis failure. -/
def analyzeWithAI (svc : String → Except String String)
    (conversationData userPrompt : String) : Except String String :=
  match svc (userPrompt ++ "\n\n=== CONVERSATION DATA ===\n" ++ conversationData) with
  | .ok content => .ok content
  | .error e => .error ("AI analysis failed: " ++ e)

/-- The world main runs against: the parsed CLI options, the clock, and the
response sequences of the two remote collaborators.  historyPages depends on
the lower-bound timestamp main passes to the history requests. -/
structure Env where
  openaiKey : Option String
  envOpenaiKey : Option String
  datetime : String
  channel : String
  prompt : String
  now : Int
  absParse : String → Option Int
  listChannels : Except String (List ChannelRec)
  userPages : List (Except String UsersPage)
  historyPages : Int → List (Except String HistoryPage)
  replyOracle : String → Except String (List RawMessage)
  completion : String → Except String String

/-- The observable outcome of a run: the process exit status, whether the
completion backend was invoked, whether the no-messages notice was printed,
and the diagnostic the catch clause printed, if any. -/
structure RunResult where
  exitCode : Nat
  analysisCalled : Bool
  noMessagesReported : Bool
  diagnostic : Option String
deriving DecidableEq, Repr

/-- Shallow embedding of main: each stage in order; a thrown error reaches
the catch clause, which prints the diagnostic and exits 1; the empty message
list returns early (exit 0) before the formatter and the analysis call. -/
def main (env : Env) : RunResult :=
  if !optTruthy env.openaiKey && !optTruthy env.envOpenaiKey then
    { exitCode := 1, analysisCalled := false, noMessagesReported := false
      diagnostic := some ("OpenAI API key is required. Provide it via " ++
        "--openai-key option or OPENAI_API_KEY environment variable.") }
  else
    match parseDateTime env.now env.absParse env.datetime with
    | .error e => ⟨1, false, false, some e⟩
    | .ok sinceTimestamp =>
      match resolveChannelId env.listChannels env.channel with
      | .error e => ⟨1, false, false, some e⟩
      | .ok channelId =>
        let userMap := getUserMap env.userPages
        match fetchChannelMessages userMap env.replyOracle
            (env.historyPages sinceTimestamp) with
        | .error e => ⟨1, false, false, some e⟩
        | .ok messages =>
          if messages.length == 0 then ⟨0, false, true, none⟩
          else
            let conversationData := formatConversationForAI messages channelId
            match analyzeWithAI env.completion conversationData env.prompt with
            | .error e => ⟨1, true, false, some e⟩
            | .ok _ => ⟨0, true, false, none⟩

end SlackAnalyzer

namespace SlackAnalyzer

/-! Spec-side definitions.  These follow the wording of the specification
rather than the code, and are compared with the embedded functions in the
theorems below. -/

/-- Spec-side: a message is a thread root iff its thread-root timestamp
equals its own timestamp. -/
def isThreadRoot (m : RawMessage) : Bool := m.thread_ts == some m.ts

/-- Spec-side: the whole input is exactly of the claimed relative form
<integer> <unit> ago (up to the case-insensitivity and the \s+ separators of
the notation): the pattern matches at position zero and consumes the entire
string. -/
def specExactRelativeForm (s : String) : Bool :=
  match matchRelAt s.toList with
  | some (_, _, rest) => rest.isEmpty
  | none => false

/-- Concatenation of a list of strings. -/
def strConcat (l : List String) : String := l.foldr (fun a b => a ++ b) ""

/-- Spec-side: one indented reply line. -/
def replyLine (reply : Reply) : String :=
  "    └─ [" ++ reply.timestamp ++ "] " ++ reply.username ++ ": " ++
    reply.text ++ "\n"

/-- Spec-side: the block a message contributes to the transcript: its own
line, one indented line per reply, then a blank separator line. -/
def messageBlock (message : Message) : String :=
  ("[" ++ message.timestamp ++ "] " ++ message.username ++ ": " ++
      message.text ++ "\n")
    ++ strConcat (message.replies.map replyLine) ++ "\n"

/-- Spec-side rendering of section 4.4: a header line naming the channel,
then the block of every message in order. -/
def specTranscript (messages : List Message) (channelId : String) : String :=
  ("=== SLACK CHANNEL CONVERSATION (" ++ channelId ++ ") ===\n\n")
    ++ strConcat (messages.map messageBlock)

/-- Spec-side: first-available-of semantics for the display name, over the
candidate list real name, handle, profile display name, with the fixed
final fallback. -/
def specFirstAvailable (u : SlackUser) : String :=
  (([u.real_name, u.name, u.profile_display_name].findSome? fun c =>
      match c with
      | some s => if strTruthy s then some s else none
      | none => none)).getD "Unknown User"

/-- The member map built from a list of fully consumed member pages. -/
def buildUserMap (pages : List UsersPage) : List (String × String) :=
  pages.foldl
    (fun acc page =>
      page.members.foldl (fun a u => mapSet a u.id (displayName u)) acc)
    []

/-- Well-formed pagination: every page before the last carries a truthy
continuation cursor and the cursor of the last page is untruthy (the
backend reports none remaining). -/
def cursorChainOK : List HistoryPage → Bool
  | [] => true
  | [p] => !optTruthy p.next_cursor
  | p :: q :: rest => optTruthy p.next_cursor && cursorChainOK (q :: rest)

/-! Helper lemmas. -/

lemma foldl_append_str {α : Type} (f : α → String) :
    ∀ (l : List α) (init : String),
      l.foldl (fun a x => a ++ f x) init = init ++ strConcat (l.map f) := by
  intro l
  induction l with
  | nil =>
    intro init
    simp [strConcat]
  | cons x xs ih =>
    intro init
    simp only [List.foldl_cons, List.map_cons, ih, strConcat, List.foldr_cons]
    rw [String.append_assoc]

lemma strTruthy_of_ne (s : String) (h : s ≠ "") : strTruthy s = true := by
  simp only [strTruthy, Bool.not_eq_true']
  exact Bool.eq_false_iff.mpr fun hh => h ((String.isEmpty_iff s).mp hh)

lemma msgLE_trans :
    ∀ a b c : Message, msgLE a b = true → msgLE b c = true → msgLE a c = true := by
  intro a b c hab hbc
  simp only [msgLE, decide_eq_true_eq] at *
  omega

lemma msgLE_total : ∀ a b : Message, (msgLE a b || msgLE b a) = true := by
  intro a b
  simp only [msgLE, Bool.or_eq_true, decide_eq_true_eq]
  omega

/-! C10 first, since later claims build on the same formatter. -/

/-- C10: on the empty message list the formatter emits exactly the header
naming the channel followed by two newlines, and nothing else: no message,
reply or separator lines. -/
theorem format_empty_is_header_only (channelId : String) :
    formatConversationForAI [] channelId =
      "=== SLACK CHANNEL CONVERSATION (" ++ channelId ++ ") ===\n\n" := by
  simp [formatConversationForAI]

end SlackAnalyzer

namespace SlackAnalyzer

/-! The Transcript Formatter: C2. -/

lemma reply_fold (replies : List Reply) :
    ∀ init : String,
      replies.foldl
        (fun acc reply => acc ++
          ("    └─ [" ++ reply.timestamp ++ "] " ++ reply.username ++ ": " ++
            reply.text ++ "\n")) init
      = init ++ strConcat (replies.map replyLine) := by
  induction replies with
  | nil =>
    intro init
    simp [strConcat]
  | cons r rs ih =>
    intro init
    rw [List.foldl_cons, ih]
    simp only [List.map_cons, strConcat, List.foldr_cons, replyLine]
    rw [String.append_assoc]

lemma format_fold (messages : List Message) :
    ∀ init : String,
      messages.foldl
        (fun conversationText message =>
          let withLine := conversationText ++
            ("[" ++ message.timestamp ++ "] " ++ message.username ++ ": " ++
              message.text ++ "\n")
          let withReplies := message.replies.foldl
            (fun acc reply => acc ++
              ("    └─ [" ++ reply.timestamp ++ "] " ++ reply.username ++ ": " ++
                reply.text ++ "\n"))
            withLine
          withReplies ++ "\n") init
      = init ++ strConcat (messages.map messageBlock) := by
  induction messages with
  | nil =>
    intro init
    simp [strConcat]
  | cons m ms ih =>
    intro init
    rw [List.foldl_cons, ih]
    simp only [reply_fold, List.map_cons, strConcat, List.foldr_cons, messageBlock]
    simp [String.append_assoc]

/-- C2: the Transcript Formatter is a pure function of the message list and
the channel identifier (hence deterministic and side-effect-free, with
byte-identical output on identical input), its output is exactly the
spec-side rendering (header line naming the channel, then per message a
bracketed line, one indented line per reply, then a blank separator line),
and on the known one-message-with-one-reply example it produces exactly the
expected bytes after the header. -/
theorem formatter_matches_spec :
    (∀ (messages : List Message) (channelId : String),
      formatConversationForAI messages channelId =
        specTranscript messages channelId)
    ∧ formatConversationForAI
        [⟨"2024-01-01 10:00:00", "Alice", "hi", "message",
          [⟨"2024-01-01 10:01:00", "Bob", "hey", "message"⟩]⟩] "C123"
      = "=== SLACK CHANNEL CONVERSATION (C123) ===\n\n" ++
          "[2024-01-01 10:00:00] Alice: hi\n    └─ [2024-01-01 10:01:00] Bob: hey\n\n" := by
  constructor
  · intro messages channelId
    unfold formatConversationForAI specTranscript
    exact format_fold messages _
  · decide

/-! Channel resolution: C9 and C5. -/

/-- C9: an input already matching the canonical identifier shape is returned
unchanged, whatever the channel-listing collaborator would have answered,
i.e. without any network call. -/
theorem resolve_canonical_identity (channelInput : String)
    (h : isChannelIdShape channelInput = true) :
    ∀ listChannels, resolveChannelId listChannels channelInput = .ok channelInput := by
  intro listChannels
  simp [resolveChannelId, h]

theorem resolve_canonical_identity_witness :
    resolveChannelId (.error "transport down") "C042ABC" = .ok "C042ABC"
    ∧ resolveChannelId (.ok []) "C042ABC" = .ok "C042ABC" :=
  ⟨resolve_canonical_identity "C042ABC" (by decide) _,
   resolve_canonical_identity "C042ABC" (by decide) _⟩

/-- C5: for a non-canonical input, resolution strips a leading hash and
searches the listing for an exact name match, returning the identifier of a
matching channel; it fails with the not-found message when no name matches,
wraps a transport error in the resolution-failure message, and the two
failure messages are distinguishable. -/
theorem resolve_noncanonical_behavior (channelInput : String)
    (h : isChannelIdShape channelInput = false) :
    (∀ cs : List Char, stripHash (String.mk ('#' :: cs)) = String.mk cs)
    ∧ (∀ channels : List ChannelRec,
        (∃ ch ∈ channels, ch.name = stripHash channelInput) →
        ∃ ch ∈ channels, ch.name = stripHash channelInput ∧
          resolveChannelId (.ok channels) channelInput = .ok ch.id)
    ∧ (∀ channels : List ChannelRec,
        (∀ ch ∈ channels, ch.name ≠ stripHash channelInput) →
        resolveChannelId (.ok channels) channelInput =
          .error ("Failed to resolve channel: " ++
            ("Channel not found: " ++ channelInput)))
    ∧ (∀ e, resolveChannelId (.error e) channelInput =
        .error ("Failed to resolve channel: " ++ e))
    ∧ (∀ e channels, (∀ ch ∈ channels, ch.name ≠ stripHash channelInput) →
        e ≠ "Channel not found: " ++ channelInput →
        resolveChannelId (.error e) channelInput ≠
          resolveChannelId (.ok channels) channelInput) := by
  have hnone : ∀ channels : List ChannelRec,
      (∀ ch ∈ channels, ch.name ≠ stripHash channelInput) →
      channels.find? (fun ch => ch.name == stripHash channelInput) = none := by
    intro channels hch
    rw [List.find?_eq_none]
    intro x hx
    simpa using hch x hx
  refine ⟨fun cs => rfl, ?_, ?_, ?_, ?_⟩
  · intro channels hex
    obtain ⟨ch, hmem, hname⟩ := hex
    have hsome : (channels.find? (fun c => c.name == stripHash channelInput)).isSome := by
      rw [List.find?_isSome]
      exact ⟨ch, hmem, by simp [hname]⟩
    obtain ⟨ch0, hf⟩ := Option.isSome_iff_exists.mp hsome
    refine ⟨ch0, List.mem_of_find?_eq_some hf, ?_, ?_⟩
    · simpa using List.find?_some hf
    · simp [resolveChannelId, h, hf]
  · intro channels hch
    simp [resolveChannelId, h, hnone channels hch]
  · intro e
    simp [resolveChannelId, h]
  · intro e channels hch hne
    simp only [resolveChannelId, h, Bool.false_eq_true, if_false, hnone channels hch]
    intro heq
    apply hne
    have hstr : "Failed to resolve channel: " ++ e =
        "Failed to resolve channel: " ++ ("Channel not found: " ++ channelInput) := by
      simpa using heq
    have := congrArg String.data hstr
    rw [String.data_append, String.data_append] at this
    exact congrArg String.mk (List.append_cancel_left this)

theorem resolve_noncanonical_behavior_witness :
    resolveChannelId (.ok [ChannelRec.mk "C9XYZ" "general"]) "#general" =
      .ok "C9XYZ" := by
  have hh := (resolve_noncanonical_behavior "#general" (by decide)).2.1
    [ChannelRec.mk "C9XYZ" "general"]
    ⟨ChannelRec.mk "C9XYZ" "general", by decide, by decide⟩
  obtain ⟨ch, hmem, hname, hres⟩ := hh
  have : ch = ChannelRec.mk "C9XYZ" "general" := by
    rcases List.mem_singleton.mp hmem with rfl
    rfl
  rw [this] at hres
  exact hres

/-! Thread replies: C6 and C4. -/

/-- C6: reply retrieval issues the single dedicated request, drops the first
returned entry (the echoed root) and maps the remainder into Reply records
with the same name-resolution fallback; a transport error on that request is
non-fatal and yields an empty reply list for that message. -/
theorem thread_reply_handling :
    (∀ msgs : List RawMessage, getThreadReplies (.ok msgs) = msgs.drop 1)
    ∧ (∀ e, getThreadReplies (.error e) = [])
    ∧ (∀ userMap r, (mkReply userMap r).username = resolveName userMap r.user)
    ∧ (∀ userMap oracle m, triggersReplyFetch m = true →
        (processMessage userMap oracle m).replies =
          (getThreadReplies (oracle m.ts)).map (mkReply userMap))
    ∧ (∀ userMap oracle m e, oracle m.ts = .error e →
        (processMessage userMap oracle m).replies = []) := by
  refine ⟨fun msgs => rfl, fun e => rfl, fun userMap r => rfl, ?_, ?_⟩
  · intro userMap oracle m hm
    simp [processMessage, hm]
  · intro userMap oracle m e he
    by_cases ht : triggersReplyFetch m <;>
      simp [processMessage, ht, he, getThreadReplies]

theorem thread_reply_handling_witness :
    (processMessage [] (fun _ => .error "rate limited")
      ⟨some "U1", "111.0", some "root", some "message", some "111.0", some 2⟩).replies
      = [] :=
  thread_reply_handling.2.2.2.2 [] (fun _ => .error "rate limited")
    ⟨some "U1", "111.0", some "root", some "message", some "111.0", some 2⟩
    "rate limited" rfl

lemma triggers_imp_root (m : RawMessage) :
    triggersReplyFetch m = true → isThreadRoot m = true := by
  intro hm
  unfold triggersReplyFetch at hm
  cases hts : m.thread_ts with
  | none => rw [hts] at hm; exact absurd hm (by simp)
  | some t =>
    rw [hts] at hm
    have ht : t = m.ts := by
      have := (Bool.and_eq_true _ _).mp hm
      exact beq_iff_eq.mp this.2
    simp [isThreadRoot, hts, ht]

/-- C4: the reply-fetch guard fires only on messages whose thread-root
timestamp equals their own timestamp; for any message with a nonempty
timestamp the guard is exactly the thread-root test; a non-root message
keeps an empty reply list; and the number of reply fetches in a run never
exceeds the number of true thread roots among the consumed messages. -/
theorem reply_fetch_iff_thread_root :
    (∀ m : RawMessage, triggersReplyFetch m = true → isThreadRoot m = true)
    ∧ (∀ m : RawMessage, m.ts ≠ "" →
        (triggersReplyFetch m = true ↔ isThreadRoot m = true))
    ∧ (∀ userMap oracle m, isThreadRoot m = false →
        (processMessage userMap oracle m).replies = [])
    ∧ (∀ pages, replyFetchCount pages ≤ (consumedRaw pages).countP isThreadRoot) := by
  refine ⟨triggers_imp_root, ?_, ?_, ?_⟩
  · intro m hts
    constructor
    · exact triggers_imp_root m
    · intro hroot
      have heq : m.thread_ts = some m.ts := by
        simpa [isThreadRoot] using hroot
      simp [triggersReplyFetch, heq, strTruthy_of_ne m.ts hts]
  · intro userMap oracle m hroot
    have ht : triggersReplyFetch m = false := by
      cases hh : triggersReplyFetch m with
      | false => rfl
      | true => rw [triggers_imp_root m hh] at hroot; exact absurd hroot (by simp)
    simp [processMessage, ht]
  · intro pages
    exact List.countP_mono_left (fun x _ hx => triggers_imp_root x hx)

theorem reply_fetch_iff_thread_root_witness :
    (triggersReplyFetch
        ⟨some "U2", "222.5", some "in thread", some "message", some "111.0", none⟩ = true
      ↔ isThreadRoot
        ⟨some "U2", "222.5", some "in thread", some "message", some "111.0", none⟩ = true) :=
  reply_fetch_iff_thread_root.2.1
    ⟨some "U2", "222.5", some "in thread", some "message", some "111.0", none⟩
    (by decide)

end SlackAnalyzer

namespace SlackAnalyzer

/-! Member directory: C7. -/

lemma getUserMapLoop_partial (e : String) (rest : List (Except String UsersPage)) :
    ∀ (okPages : List UsersPage) (m : List (String × String)),
      (∀ p ∈ okPages, optTruthy p.next_cursor = true) →
      getUserMapLoop m (okPages.map Except.ok ++ .error e :: rest) =
        okPages.foldl
          (fun acc page =>
            page.members.foldl (fun a u => mapSet a u.id (displayName u)) acc) m := by
  intro okPages
  induction okPages with
  | nil =>
    intro m _
    simp [getUserMapLoop]
  | cons p ps ih =>
    intro m hc
    have hp : optTruthy p.next_cursor = true := hc p (by simp)
    simp only [List.map_cons, List.cons_append, getUserMapLoop, hp, if_true,
      List.foldl_cons]
    exact ih _ (fun x hx => hc x (by simp [hx]))

lemma getUserMapLoop_full (lastPage : UsersPage)
    (hlast : optTruthy lastPage.next_cursor = false) :
    ∀ (okPages : List UsersPage) (m : List (String × String)),
      (∀ p ∈ okPages, optTruthy p.next_cursor = true) →
      getUserMapLoop m ((okPages ++ [lastPage]).map Except.ok) =
        (okPages ++ [lastPage]).foldl
          (fun acc page =>
            page.members.foldl (fun a u => mapSet a u.id (displayName u)) acc) m := by
  intro okPages
  induction okPages with
  | nil =>
    intro m _
    simp [getUserMapLoop, hlast]
  | cons p ps ih =>
    intro m hc
    have hp : optTruthy p.next_cursor = true := hc p (by simp)
    simp only [List.cons_append, List.map_cons, getUserMapLoop, hp, if_true,
      List.foldl_cons]
    exact ih _ (fun x hx => hc x (by simp [hx]))

/-- C7: member-directory construction pages through the listing, computing
first-available-of display names; a transport failure mid-listing is
non-fatal and yields the partial (possibly empty) mapping built so far; and
a lookup for an identifier absent from the directory never fails to produce
a string: the raw identifier when truthy, else the fixed fallback. -/
theorem user_directory_behavior :
    (∀ u : SlackUser, displayName u = specFirstAvailable u)
    ∧ (∀ (okPages : List UsersPage) (lastPage : UsersPage),
        (∀ p ∈ okPages, optTruthy p.next_cursor = true) →
        optTruthy lastPage.next_cursor = false →
        getUserMap ((okPages ++ [lastPage]).map Except.ok) =
          buildUserMap (okPages ++ [lastPage]))
    ∧ (∀ (okPages : List UsersPage) (e : String)
          (rest : List (Except String UsersPage)),
        (∀ p ∈ okPages, optTruthy p.next_cursor = true) →
        getUserMap (okPages.map Except.ok ++ .error e :: rest) =
          buildUserMap okPages)
    ∧ (∀ e, getUserMap [Except.error e] = [])
    ∧ (∀ userMap, resolveName userMap none = "Unknown User")
    ∧ (∀ userMap uid, mapGet userMap uid = none →
        resolveName userMap (some uid) =
          if strTruthy uid then uid else "Unknown User") := by
  refine ⟨?_, ?_, ?_, fun e => rfl, fun userMap => rfl, ?_⟩
  · intro u
    rcases u with ⟨uid, rn, nm, pd⟩
    rcases rn with _ | s1 <;> rcases nm with _ | s2 <;> rcases pd with _ | s3 <;>
      simp [displayName, specFirstAvailable, orFalsy, List.findSome?] <;>
        split_ifs <;> simp_all
  · intro okPages lastPage hok hlast
    exact getUserMapLoop_full lastPage hlast okPages [] hok
  · intro okPages e rest hok
    exact getUserMapLoop_partial e rest okPages [] hok
  · intro userMap uid h
    simp [resolveName, h, orFalsy]

theorem user_directory_behavior_witness :
    getUserMap
        ([UsersPage.mk [SlackUser.mk "U1" (some "Ann Example") none none]
            (some "cur")].map Except.ok ++ .error "network down" :: []) =
      buildUserMap
        [UsersPage.mk [SlackUser.mk "U1" (some "Ann Example") none none]
          (some "cur")]
    ∧ resolveName [] (some "U9") = "U9" :=
  ⟨user_directory_behavior.2.2.1
      [UsersPage.mk [SlackUser.mk "U1" (some "Ann Example") none none]
        (some "cur")] "network down" [] (by decide),
   (user_directory_behavior.2.2.2.2.2 [] "U9" rfl).trans (by decide)⟩

end SlackAnalyzer

namespace SlackAnalyzer

/-! The Time Resolver: C3. -/

lemma tryUnit_inv (amount : Nat) (rest2 : List Char) (u : String)
    (n : Nat) (u' : String) (rest : List Char)
    (h : tryUnit amount rest2 u = some (n, u', rest)) : n = amount ∧ u' = u := by
  unfold tryUnit at h
  split at h
  · exact absurd h (by simp)
  · split at h
    · exact absurd h (by simp)
    · split at h
      · exact absurd h (by simp)
      · simp only [Option.some.injEq, Prod.mk.injEq] at h
        exact ⟨h.1.symm, h.2.1.symm⟩

lemma matchRelAt_unit_mem (cs : List Char) (n : Nat) (u : String) (rest : List Char)
    (h : matchRelAt cs = some (n, u, rest)) : u ∈ relativeUnits := by
  unfold matchRelAt at h
  split at h
  · exact absurd h (by simp)
  · split at h
    · exact absurd h (by simp)
    · obtain ⟨l₁, a, l₂, hsplit, hfa, -⟩ := List.findSome?_eq_some_iff.mp h
      obtain ⟨-, rfl⟩ := tryUnit_inv _ _ _ _ _ _ hfa
      rw [hsplit]
      exact List.mem_append_right _ (List.mem_cons_self _ _)

lemma matchRelAt_nil : matchRelAt ([] : List Char) = none := rfl

lemma relativeMatch_of_matchRelAt (s : String) (n : Nat) (u : String)
    (rest : List Char) (h : matchRelAt s.toList = some (n, u, rest)) :
    relativeMatch s = some (n, u) := by
  have hsearch : relSearch s.toList = some (n, u, rest) := by
    cases hl : s.toList with
    | nil =>
      rw [hl, matchRelAt_nil] at h
      exact absurd h (by simp)
    | cons c cs =>
      rw [hl] at h
      unfold relSearch
      rw [h]
  unfold relativeMatch
  rw [hsearch]

lemma relSearch_inv : ∀ (cs : List Char) (r : Nat × String × List Char),
    relSearch cs = some r → ∃ cs', matchRelAt cs' = some r := by
  intro cs
  induction cs with
  | nil =>
    intro r h
    simp [relSearch] at h
  | cons c cs' ih =>
    intro r h
    unfold relSearch at h
    split at h
    next r' hr' =>
      cases h
      exact ⟨c :: cs', hr'⟩
    next hr' => exact ih r h

/-- C3 (amended): the resolver returns now minus amount·unit exactly when
the unanchored case-insensitive search finds the pattern
<integer> <unit> ago somewhere in the string — in particular whenever the
pattern matches at the start, hence on every string of the exact form —
with the captured unit one of minute(s), hour(s), day(s), week(s); a
string with no such substring is handed to the absolute calendar parser;
and the resolver fails with the invalid-datetime error exactly when no such
substring occurs and the absolute parse is invalid. -/
theorem time_resolver_behavior (now : Int) (absParse : String → Option Int)
    (s : String) :
    (∀ n u rest, matchRelAt s.toList = some (n, u, rest) →
        parseDateTime now absParse s = .ok (now - (n : Int) * unitSeconds u))
    ∧ (∀ n u, relativeMatch s = some (n, u) →
        u ∈ relativeUnits ∧
          parseDateTime now absParse s = .ok (now - (n : Int) * unitSeconds u))
    ∧ (∀ t, relativeMatch s = none → absParse s = some t →
        parseDateTime now absParse s = .ok t)
    ∧ ((∃ msg, parseDateTime now absParse s = .error msg) ↔
        relativeMatch s = none ∧ absParse s = none) := by
  refine ⟨?_, ?_, ?_, ?_⟩
  · intro n u rest h
    have hr := relativeMatch_of_matchRelAt s n u rest h
    simp [parseDateTime, hr]
  · intro n u h
    refine ⟨?_, by simp [parseDateTime, h]⟩
    unfold relativeMatch at h
    split at h
    next n' u' rest' hs =>
      simp only [Option.some.injEq, Prod.mk.injEq] at h
      obtain ⟨cs', hm⟩ := relSearch_inv s.toList _ hs
      exact h.2 ▸ matchRelAt_unit_mem cs' n' u' rest' hm
    next hs => exact absurd h (by simp)
  · intro t hnone habs
    simp [parseDateTime, hnone, habs]
  · unfold parseDateTime
    cases hr : relativeMatch s with
    | some p => simp
    | none =>
      cases ha : absParse s with
      | some t => simp
      | none => simp

theorem time_resolver_behavior_witness :
    ∃ msg, parseDateTime 0 (fun _ => none) "yesterday-ish" = .error msg :=
  (time_resolver_behavior 0 (fun _ => none) "yesterday-ish").2.2.2.mpr
    ⟨by decide, rfl⟩

/-- C3 counterexample: the string a 2 days ago is not of the exact form
<integer> <unit> ago (it carries a leading letter), so by the claim it
should be handed to the absolute calendar parser — which cannot parse it,
so the claim predicts an InvalidInput failure.  The code instead finds the
embedded substring with its unanchored search and returns a relative
result, now minus two days. -/
theorem time_resolver_unanchored_counterexample :
    specExactRelativeForm "a 2 days ago" = false
    ∧ parseDateTime 0 (fun _ => none) "a 2 days ago" = .ok (-172800) := by
  constructor
  · decide
  · rfl

end SlackAnalyzer

namespace SlackAnalyzer

/-! The History Fetcher: C1. -/

lemma fetchLoop_cons_ok (userMap : List (String × String))
    (oracle : String → Except String (List RawMessage)) (p : HistoryPage)
    (rest : List (Except String HistoryPage))
    (h1 : p.messages.isEmpty = false) (hc : optTruthy p.next_cursor = true) :
    fetchLoop userMap oracle (Except.ok p :: rest) =
      match fetchLoop userMap oracle rest with
      | .ok more => .ok (p.messages.map (processMessage userMap oracle) ++ more)
      | .error e => .error e := by
  simp [fetchLoop, h1, hc]

lemma fetchLoop_all_ok (userMap : List (String × String))
    (oracle : String → Except String (List RawMessage)) :
    ∀ pageList : List HistoryPage,
      (∀ p ∈ pageList, p.messages ≠ []) →
      cursorChainOK pageList = true →
      fetchLoop userMap oracle (pageList.map Except.ok) =
        .ok ((pageList.map
          (fun p => p.messages.map (processMessage userMap oracle))).flatten) := by
  intro pageList
  induction pageList with
  | nil =>
    intro _ _
    simp [fetchLoop]
  | cons p rest ih =>
    intro hne hchain
    have h1 : p.messages.isEmpty = false := by
      rw [Bool.eq_false_iff]
      intro hh
      exact hne p (by simp) (List.isEmpty_iff.mp hh)
    cases rest with
    | nil =>
      have h2 : optTruthy p.next_cursor = false := by
        simpa [cursorChainOK] using hchain
      simp [fetchLoop, h1, h2]
    | cons q rest' =>
      obtain ⟨hc1, hc2⟩ :
          optTruthy p.next_cursor = true ∧ cursorChainOK (q :: rest') = true := by
        simpa [cursorChainOK] using hchain
      have ih' := ih (fun x hx => hne x (List.mem_cons_of_mem _ hx)) hc2
      rw [List.map_cons, fetchLoop_cons_ok userMap oracle p _ h1 hc1, ih']
      simp

/-- C1: under well-formed pagination (every page non-empty, cursors chaining
until the backend reports none remaining), the fetcher consumes every page
and returns exactly the concatenation of all processed pages re-sorted
ascending by timestamp, with output length the sum of the per-page message
counts; moreover every successful fetch, over any response sequence
whatsoever, hands the Formatter a list sorted ascending by timestamp. -/
theorem fetcher_concat_sorted (userMap : List (String × String))
    (oracle : String → Except String (List RawMessage))
    (pageList : List HistoryPage)
    (hne : ∀ p ∈ pageList, p.messages ≠ [])
    (hchain : cursorChainOK pageList = true) :
    fetchChannelMessages userMap oracle (pageList.map Except.ok) =
      .ok (((pageList.map
        (fun p => p.messages.map (processMessage userMap oracle))).flatten).mergeSort msgLE)
    ∧ (((pageList.map
        (fun p => p.messages.map (processMessage userMap oracle))).flatten).mergeSort
          msgLE).length
        = (pageList.map (fun p => p.messages.length)).sum
    ∧ (∀ (pages : List (Except String HistoryPage)) (out : List Message),
        fetchChannelMessages userMap oracle pages = .ok out →
        List.Pairwise (fun a b => msgLE a b = true) out) := by
  refine ⟨?_, ?_, ?_⟩
  · unfold fetchChannelMessages
    rw [fetchLoop_all_ok userMap oracle pageList hne hchain]
  · have hcomp :
        (List.length ∘ fun p : HistoryPage =>
            p.messages.map (processMessage userMap oracle))
          = fun p : HistoryPage => p.messages.length := by
      funext p
      simp
    rw [List.length_mergeSort, List.length_flatten, List.map_map, hcomp]
  · intro pages out h
    unfold fetchChannelMessages at h
    split at h
    next l hl =>
      cases h
      exact List.sorted_mergeSort msgLE_trans msgLE_total l
    next e he => exact absurd h (by simp)

/-- Concrete two-page backend for the fetcher witness: the later page holds
the earlier timestamp, so the sort visibly reorders. -/
def pageA : HistoryPage :=
  ⟨[⟨some "U1", "2000.0", some "second", some "message", none, none⟩], some "cursor1"⟩

/-- Final page of the witness backend, with no continuation cursor. -/
def pageB : HistoryPage :=
  ⟨[⟨some "U2", "1000.0", some "first", some "message", none, none⟩], none⟩

theorem fetcher_concat_sorted_witness :
    fetchChannelMessages [] (fun _ => Except.ok []) ([pageA, pageB].map Except.ok) =
      .ok ((([pageA, pageB].map
        (fun p => p.messages.map (processMessage [] (fun _ => Except.ok [])))).flatten).mergeSort
          msgLE)
    ∧ ((([pageA, pageB].map
        (fun p => p.messages.map (processMessage [] (fun _ => Except.ok [])))).flatten).mergeSort
          msgLE).length
        = ([pageA, pageB].map (fun p => p.messages.length)).sum :=
  ⟨(fetcher_concat_sorted [] (fun _ => Except.ok []) [pageA, pageB]
      (by decide) (by decide)).1,
   (fetcher_concat_sorted [] (fun _ => Except.ok []) [pageA, pageB]
      (by decide) (by decide)).2.1⟩

/-! The Orchestrator: C8. -/

/-- C8: with the completion credential present, successful early stages and
an empty retrieved message list, the run reports the no-messages outcome and
exits 0 without invoking the Analysis Client; and an error propagated from
any stage — time parse, channel resolution, history fetch, analysis — halts
the run with that diagnostic and exit status 1. -/
theorem orchestrator_outcomes (env : Env)
    (hkey : optTruthy env.openaiKey = true ∨ optTruthy env.envOpenaiKey = true) :
    (∀ ts cid,
        parseDateTime env.now env.absParse env.datetime = .ok ts →
        resolveChannelId env.listChannels env.channel = .ok cid →
        fetchChannelMessages (getUserMap env.userPages) env.replyOracle
            (env.historyPages ts) = .ok [] →
        main env = ⟨0, false, true, none⟩)
    ∧ (∀ e, parseDateTime env.now env.absParse env.datetime = .error e →
        main env = ⟨1, false, false, some e⟩)
    ∧ (∀ ts e,
        parseDateTime env.now env.absParse env.datetime = .ok ts →
        resolveChannelId env.listChannels env.channel = .error e →
        main env = ⟨1, false, false, some e⟩)
    ∧ (∀ ts cid e,
        parseDateTime env.now env.absParse env.datetime = .ok ts →
        resolveChannelId env.listChannels env.channel = .ok cid →
        fetchChannelMessages (getUserMap env.userPages) env.replyOracle
            (env.historyPages ts) = .error e →
        main env = ⟨1, false, false, some e⟩)
    ∧ (∀ ts cid msgs e,
        parseDateTime env.now env.absParse env.datetime = .ok ts →
        resolveChannelId env.listChannels env.channel = .ok cid →
        fetchChannelMessages (getUserMap env.userPages) env.replyOracle
            (env.historyPages ts) = .ok msgs →
        msgs ≠ [] →
        analyzeWithAI env.completion (formatConversationForAI msgs cid)
            env.prompt = .error e →
        main env = ⟨1, true, false, some e⟩) := by
  have hk : (!optTruthy env.openaiKey && !optTruthy env.envOpenaiKey) = false := by
    rcases hkey with h | h <;> simp [h]
  refine ⟨?_, ?_, ?_, ?_, ?_⟩
  · intro ts cid hp hr hf
    simp [main, hk, hp, hr, hf]
  · intro e hp
    simp [main, hk, hp]
  · intro ts e hp hr
    simp [main, hk, hp, hr]
  · intro ts cid e hp hr hf
    simp [main, hk, hp, hr, hf]
  · intro ts cid msgs e hp hr hf hmsgs ha
    have hlen : (msgs.length == 0) = false := by
      simp only [beq_eq_false_iff_ne, ne_eq, List.length_eq_zero]
      exact hmsgs
    simp [main, hk, hp, hr, hf, hlen, ha]

/-- Concrete environment for the orchestrator witness: a present credential,
a parseable absolute datetime, a canonical channel and an empty history. -/
def envC8 : Env :=
  { openaiKey := some "sk-key"
    envOpenaiKey := none
    datetime := "2024-01-01"
    channel := "C123"
    prompt := "summarize the discussion"
    now := 0
    absParse := fun _ => some 1704067200
    listChannels := .ok []
    userPages := []
    historyPages := fun _ => []
    replyOracle := fun _ => .ok []
    completion := fun _ => .ok "analysis text" }

theorem orchestrator_outcomes_witness :
    main envC8 = ⟨0, false, true, none⟩ :=
  (orchestrator_outcomes envC8 (Or.inl (by decide))).1 1704067200 "C123"
    (by rfl) (by rfl)
    (by simp [envC8, fetchChannelMessages, fetchLoop, List.mergeSort_nil])

end SlackAnalyzer
